import Mathlib

/-!
Verification of the obsidian-voice-notes plugin core (main.ts + processor.ts)
via a shallow embedding in Lean.

The embedding models:
  - the plugin settings and the candidate predicate (shouldProcessFile),
  - the vault as a list of entries (files with content, folders),
  - the processing pipeline (processAudioFile) with its remote-call results
    supplied as explicit inputs and its Math.random draws as explicit
    values in [0, 1000),
  - the per-item queued task wrapper (queueFile) with its try/catch and
    notifications, run sequentially (the queue has concurrency 1),
  - the startup scan (queueUnprocessedFiles) and the onload folder setup.

JavaScript strings are modelled as Lean strings; String.prototype.split('\n'),
String.prototype.includes and String.prototype.trim are given explicit
executable models on lists of characters (trim uses the ASCII whitespace
subset, which is all that the pipeline's data can contain here).
-/

namespace VoiceNotes

/-- Settings interface VoiceNotesSettings from main.ts. -/
structure VoiceNotesSettings where
  openAIAPIKey : String
  watchDirectory : String
  processedDirectory : String
  outputDirectory : String
deriving DecidableEq, Repr

/-- DEFAULT_SETTINGS from main.ts. -/
def DEFAULT_SETTINGS : VoiceNotesSettings :=
  { openAIAPIKey := ""
    watchDirectory := "voice-notes"
    processedDirectory := "voice-notes-processed"
    outputDirectory := "voice-notes-output" }

/-- The kind of a TAbstractFile: a TFile (regular file) or a TFolder. -/
inductive FileKind where
  | regularFile
  | folder
deriving DecidableEq, Repr

/-- A moment in time, as the fields the code reads off the file's mtime
through the moment library: calendar date, wall-clock time and the local
UTC offset in minutes (moment keeps the local offset for toISOString(true)). -/
structure Moment where
  year : Nat
  month : Nat
  day : Nat
  hour : Nat
  minute : Nat
  second : Nat
  millisecond : Nat
  utcOffsetMinutes : Int
deriving DecidableEq, Repr

/-- A TAbstractFile as the code consumes it: its vault path, its extension,
its kind (TFile or TFolder) and its stat.mtime. -/
structure VaultFile where
  path : String
  extension : String
  kind : FileKind
  mtime : Moment
deriving DecidableEq, Repr

/-! ## String helpers: explicit models of the JavaScript string methods -/

/-- Whether the list starts with the given pattern (startsWith on chars). -/
def listStartsWith : List Char → List Char → Bool
  | _, [] => true
  | [], _ :: _ => false
  | a :: as, b :: bs => a = b && listStartsWith as bs

/-- JavaScript String.prototype.includes, on chars: the pattern occurs
contiguously somewhere in the list. -/
def listIncludes (pat : List Char) : List Char → Bool
  | [] => pat.isEmpty
  | c :: cs => listStartsWith (c :: cs) pat || listIncludes pat cs

/-- JavaScript String.prototype.includes on strings. -/
def strIncludes (s pat : String) : Bool :=
  listIncludes pat.data s.data

/-- JavaScript String.prototype.split with separator a single newline, on
chars: the list of maximal runs between newline characters; always
non-empty, and the empty string splits to one empty piece. -/
def splitNL : List Char → List (List Char)
  | [] => [[]]
  | c :: cs =>
    let r := splitNL cs
    if c = '\n' then [] :: r
    else (c :: r.headD []) :: r.tail

/-- JavaScript String.prototype.trim, on chars, for the ASCII whitespace
subset: drop whitespace from both ends. -/
def trimChars (l : List Char) : List Char :=
  ((l.dropWhile Char.isWhitespace).reverse.dropWhile Char.isWhitespace).reverse

/-- JavaScript String.prototype.trim on strings (ASCII whitespace subset). -/
def jsTrim (s : String) : String :=
  String.mk (trimChars s.data)

/-! ## Candidate predicate (main.ts) -/

/-- isAudioFile from main.ts: extension is mp3 or m4a. -/
def isAudioFile (file : VaultFile) : Bool :=
  file.extension = "mp3" || file.extension = "m4a"

/-- shouldProcessFile from main.ts: the path contains the watch directory
(String.prototype.includes), the file is a TFile, and it is an audio file. -/
def shouldProcessFile (settings : VoiceNotesSettings) (file : VaultFile) : Bool :=
  strIncludes file.path settings.watchDirectory
    && file.kind = FileKind.regularFile
    && isAudioFile file

/-! ## Date formatting (moment format strings used by the code) -/

/-- Two-digit zero padding, as moment's YYYY/MM/DD/HH/mm tokens produce. -/
def pad2 (n : Nat) : String :=
  if n < 10 then "0" ++ toString n else toString n

/-- Three-digit zero padding for milliseconds in the ISO string. -/
def pad3 (n : Nat) : String :=
  if n < 10 then "00" ++ toString n
  else if n < 100 then "0" ++ toString n
  else toString n

/-- moment(mtime).format of the date pattern YYYY-MM-DD. -/
def formatDateYMD (m : Moment) : String :=
  toString m.year ++ "-" ++ pad2 m.month ++ "-" ++ pad2 m.day

/-- moment(mtime).format of the time pattern with a dot, HH.mm. -/
def formatTimeDot (m : Moment) : String :=
  pad2 m.hour ++ "." ++ pad2 m.minute

/-- The sign-and-offset tail of moment's toISOString(true), from the local
UTC offset in minutes. -/
def offsetTail (mins : Int) : String :=
  let sign := if mins < 0 then "-" else "+"
  let a := mins.natAbs
  sign ++ pad2 (a / 60) ++ ":" ++ pad2 (a % 60)

/-- moment(mtime).toISOString(true): ISO-8601 with the local offset kept. -/
def toISOStringLocal (m : Moment) : String :=
  formatDateYMD m ++ "T" ++ pad2 m.hour ++ ":" ++ pad2 m.minute ++ ":"
    ++ pad2 m.second ++ "." ++ pad3 m.millisecond ++ offsetTail m.utcOffsetMinutes

/-! ## Vault model (the Obsidian storage API the code calls) -/

/-- What a vault entry is: a regular file with text content, or a folder. -/
inductive EntryKind where
  | file (content : String)
  | folder
deriving DecidableEq, Repr

/-- One entry of the vault: a path plus its kind. -/
structure VaultEntry where
  path : String
  kind : EntryKind
deriving DecidableEq, Repr

/-- The vault as the code observes it: the list of its entries. -/
def Vault : Type := List VaultEntry

instance : DecidableEq Vault := by
  unfold Vault
  infer_instance

instance : Repr Vault := by
  unfold Vault
  infer_instance

/-- app.vault.getAbstractFileByPath returning whether any entry sits at the
path (the code only compares the result against null). -/
def pathExists (v : Vault) (p : String) : Bool :=
  v.any (fun e => e.path = p)

/-- app.vault.getFolderByPath returning whether a folder sits at the path
(null when the path is absent or holds a regular file). -/
def folderExists (v : Vault) (p : String) : Bool :=
  v.any (fun e => e.path = p && e.kind = EntryKind.folder)

/-- app.vault.create: fails when the path is already occupied, otherwise
adds a regular file with the given content. -/
def vaultCreate (v : Vault) (p content : String) : Except String Vault :=
  if pathExists v p then Except.error "File already exists"
  else Except.ok (VaultEntry.mk p (EntryKind.file content) :: v)

/-- app.vault.createFolder: adds a folder entry at the path. -/
def vaultCreateFolder (v : Vault) (p : String) : Vault :=
  VaultEntry.mk p EntryKind.folder :: v

/-- app.vault.rename: the entry at the source path now sits at the target
path, content preserved; every other entry is untouched. -/
def vaultRename (v : Vault) (src dst : String) : Vault :=
  v.map (fun e => if e.path = src then VaultEntry.mk dst e.kind else e)

/-! ## Remote calls and the pipeline (processor.ts) -/

/-- The outcome of one remote OpenAI call as the code observes it: the call
raised, or it returned a response whose text/content field is absent or a
string (the empty string is falsy in the JavaScript truthiness check). -/
inductive RemoteResp where
  | failed
  | returned (text : Option String)
deriving DecidableEq, Repr

/-- transcribeAudio from processor.ts: propagate a raised remote error, and
throw when response.text is absent or empty (falsy); otherwise the text. -/
def transcribeAudio (resp : RemoteResp) : Except String String :=
  match resp with
  | RemoteResp.failed => Except.error "remote call raised"
  | RemoteResp.returned none =>
      Except.error "No transcription text received from OpenAI"
  | RemoteResp.returned (some t) =>
      if t = "" then Except.error "No transcription text received from OpenAI"
      else Except.ok t

/-- enhanceTranscript from processor.ts: propagate a raised remote error,
throw when the message content is absent or empty (falsy); otherwise split
the content on newlines, take line 0 as the summary and the remaining lines
re-joined with newlines and trimmed as the content. -/
def enhanceTranscript (resp : RemoteResp) : Except String (String × String) :=
  match resp with
  | RemoteResp.failed => Except.error "remote call raised"
  | RemoteResp.returned none =>
      Except.error "No transcription text received from OpenAI"
  | RemoteResp.returned (some c) =>
      if c = "" then Except.error "No transcription text received from OpenAI"
      else
        let contentLines := splitNL c.data
        Except.ok (String.mk (contentLines.headD []),
          jsTrim (String.intercalate "\n" ((contentLines.drop 1).map String.mk)))

/-- formatToMarkdown from processor.ts: the note template, with the audio
file name, the summary, the ISO timestamp, the content and the transcript
interpolated verbatim. -/
def formatToMarkdown (content transcript audioFileName summary : String)
    (file : VaultFile) : String :=
  "---\nsource: \"[[" ++ audioFileName ++ "]]\"\nsummary: \"" ++ summary
    ++ "\"\ntimestamp: \"" ++ toISOStringLocal file.mtime
    ++ "\"\ntags: \n  - fromvoicenote\n---\n" ++ content
    ++ "\n\n## Original transcript\n\n" ++ transcript

/-- The collision logic processor.ts applies to the note output path and to
the archive target path: a single existence check on the desired path
stem.ext; on collision, one random suffix drawn by
Math.floor(Math.random() * 1000) — a value in [0, 1000), here the explicit
draw r — is appended to the stem, with no further check or retry. -/
def resolveUniquePath (stem ext : String) (existsAt : String → Bool)
    (r : Fin 1000) : String :=
  if existsAt (stem ++ "." ++ ext) then stem ++ "_" ++ toString r.val ++ "." ++ ext
  else stem ++ "." ++ ext

/-- A storage side effect performed by the code, for the effect trace. -/
inductive Effect where
  | createNote (path content : String)
  | renameFile (src dst : String)
  | createFolder (path : String)
deriving DecidableEq, Repr

/-- Whether an effect is a note creation. -/
def Effect.isCreateNote : Effect → Bool
  | Effect.createNote _ _ => true
  | _ => false

/-- Whether an effect is a folder creation. -/
def Effect.isCreateFolder : Effect → Bool
  | Effect.createFolder _ => true
  | _ => false

/-- The outcome of one pipeline run: whether it succeeded or threw, the
vault it left behind, and the trace of storage effects it performed. -/
structure RunResult where
  outcome : Except String Unit
  vault : Vault
  trace : List Effect
deriving Repr

/-- processAudioFile from processor.ts, over an explicit vault, the two
remote-call outcomes and the two Math.random draws (each in [0, 1000)):
transcribe, enhance, render, create the note at a collision-resolved output
path, then rename the source file to a collision-resolved target under the
processed directory. An exception at any step aborts the run there; the
trace records the storage effects actually performed. -/
def processAudioFile (s : VoiceNotesSettings) (file : VaultFile) (v : Vault)
    (tResp sResp : RemoteResp) (r1 r2 : Fin 1000) : RunResult :=
  let formattedDate := formatDateYMD file.mtime
  let formattedTime := formatTimeDot file.mtime
  let baseFileName := formattedDate ++ " at " ++ formattedTime
  let audioFileName := baseFileName ++ "." ++ file.extension
  let processedDir := s.processedDirectory
  match transcribeAudio tResp with
  | Except.error e => RunResult.mk (Except.error e) v []
  | Except.ok transcript =>
    match enhanceTranscript sResp with
    | Except.error e => RunResult.mk (Except.error e) v []
    | Except.ok (summary, content) =>
      let markdownContent :=
        formatToMarkdown content transcript audioFileName summary file
      let outputPath :=
        resolveUniquePath (s.outputDirectory ++ "/" ++ baseFileName) "md"
          (pathExists v) r1
      match vaultCreate v outputPath markdownContent with
      | Except.error e => RunResult.mk (Except.error e) v []
      | Except.ok v1 =>
        let targetLocation :=
          resolveUniquePath (processedDir ++ "/" ++ baseFileName) file.extension
            (pathExists v1) r2
        RunResult.mk (Except.ok ()) (vaultRename v1 file.path targetLocation)
          [Effect.createNote outputPath markdownContent,
           Effect.renameFile file.path targetLocation]

/-! ## Queue wrapper, startup scan and onload (main.ts / processor.ts) -/

/-- A Notice the code shows: start, success or failure, with the path. -/
inductive Notification where
  | processing (path : String)
  | transcribed (path : String)
  | failedToProcess (path : String)
deriving DecidableEq, Repr

/-- The per-item inputs the environment supplies to one pipeline run: the
two remote-call outcomes and the two Math.random draws. -/
structure ItemEnv where
  tResp : RemoteResp
  sResp : RemoteResp
  r1 : Fin 1000
  r2 : Fin 1000

/-- The body of the task queueFile adds to the PQueue, for one file: show
the processing Notice, run processAudioFile, and show the transcribed
Notice on success; any exception is caught and turned into the failure
Notice, so the task itself always returns. -/
def runQueuedTask (s : VoiceNotesSettings) (file : VaultFile) (env : ItemEnv)
    (v : Vault) : Vault × List Notification :=
  let r := processAudioFile s file v env.tResp env.sResp env.r1 env.r2
  match r.outcome with
  | Except.ok _ =>
      (r.vault, [Notification.processing file.path, Notification.transcribed file.path])
  | Except.error _ =>
      (r.vault, [Notification.processing file.path, Notification.failedToProcess file.path])

/-- The PQueue with concurrency 1 draining its tasks: the queued items run
one after another in enqueue order, each task catching its own failure, and
the Notices accumulate in order. -/
def runQueue (s : VoiceNotesSettings) (items : List (VaultFile × ItemEnv))
    (v : Vault) : Vault × List Notification :=
  match items with
  | [] => (v, [])
  | (file, env) :: rest =>
    let step := runQueuedTask s file env v
    let tail := runQueue s rest step.1
    (tail.1, step.2 ++ tail.2)

/-- queueUnprocessedFiles from main.ts: of all files in the vault, enqueue
exactly those that shouldProcessFile accepts, in order. -/
def queueUnprocessedFiles (s : VoiceNotesSettings) (files : List VaultFile) :
    List VaultFile :=
  files.filter (fun f => shouldProcessFile s f)

/-- queueFromWatcher from main.ts onload: a create or rename event enqueues
the file exactly when shouldProcessFile accepts it. -/
def queueFromWatcher (s : VoiceNotesSettings) (file : VaultFile) : Bool :=
  shouldProcessFile s file

/-- The folder setup from main.ts onload: create the processed directory,
then the output directory, each only when getFolderByPath finds no folder
there; returns the vault afterwards and the folder-creation effects. -/
def onloadEnsureFolders (s : VoiceNotesSettings) (v : Vault) :
    Vault × List Effect :=
  if folderExists v s.processedDirectory then
    if folderExists v s.outputDirectory then (v, [])
    else (vaultCreateFolder v s.outputDirectory,
      [Effect.createFolder s.outputDirectory])
  else
    if folderExists (vaultCreateFolder v s.processedDirectory)
        s.outputDirectory then
      (vaultCreateFolder v s.processedDirectory,
        [Effect.createFolder s.processedDirectory])
    else
      (vaultCreateFolder (vaultCreateFolder v s.processedDirectory)
          s.outputDirectory,
        [Effect.createFolder s.processedDirectory,
         Effect.createFolder s.outputDirectory])

/-! ## Spec-side definitions (for refinement-style comparisons) -/

/-- The spec's notion of the first line of a text: the characters before
the first newline (the whole text when it has no newline). -/
def specFirstLine (l : List Char) : List Char :=
  l.takeWhile (fun c => c ≠ '\n')

/-- Whether the body of a double-quoted front-matter value is valid: a
backslash escapes the next character, and no unescaped double quote may
occur before the closing quote. -/
def quotedBodyOk : List Char → Bool
  | [] => true
  | '\\' :: _ :: rest => quotedBodyOk rest
  | '"' :: _ => false
  | _ :: rest => quotedBodyOk rest

/-- The spec's well-formedness of the rendered summary front-matter line:
it reads summary: followed by a double-quoted value whose body is validly
escaped up to the closing quote. -/
def summaryLineWellFormed (l : List Char) : Bool :=
  listStartsWith l ("summary: \"".data)
    && (let rest := l.drop ("summary: \"".data.length)
        rest.getLast? = some '"' && quotedBodyOk rest.dropLast)

/-- Whether an effect renames the file at the given source path. -/
def Effect.isRenameOf (e : Effect) (src : String) : Bool :=
  match e with
  | Effect.renameFile s _ => s = src
  | _ => false

/-! ## Concrete inputs for witnesses and counterexamples -/

/-- A concrete mtime: 2024-05-01 09:00 local time at UTC+02:00. -/
def exMoment : Moment := Moment.mk 2024 5 1 9 0 0 0 120

/-- A concrete recording discovered in the watch folder. -/
def exFile : VaultFile :=
  VaultFile.mk "voice-notes/rec.m4a" "m4a" FileKind.regularFile exMoment

/-- A concrete vault with all three folders and the recording. -/
def exVault : Vault :=
  [VaultEntry.mk "voice-notes" EntryKind.folder,
   VaultEntry.mk "voice-notes-output" EntryKind.folder,
   VaultEntry.mk "voice-notes-processed" EntryKind.folder,
   VaultEntry.mk "voice-notes/rec.m4a" (EntryKind.file "bytes")]

/-- A concrete vault in which the processed (archive) folder is missing,
as after a deletion that happened later than the plugin's onload. -/
def exVaultNoArchive : Vault :=
  [VaultEntry.mk "voice-notes" EntryKind.folder,
   VaultEntry.mk "voice-notes-output" EntryKind.folder,
   VaultEntry.mk "voice-notes/rec.m4a" (EntryKind.file "bytes")]

/-- A concrete Math.random draw. -/
def exDraw : Fin 1000 := Fin.mk 0 (by decide)

/-- A per-item environment in which both remote calls succeed. -/
def exEnvOk : ItemEnv :=
  ItemEnv.mk (RemoteResp.returned (some "Hello world"))
    (RemoteResp.returned (some "Quick note\n- said hello")) exDraw exDraw

/-- A per-item environment in which the transcription call raises. -/
def exEnvFail : ItemEnv :=
  ItemEnv.mk RemoteResp.failed
    (RemoteResp.returned (some "Quick note\n- said hello")) exDraw exDraw

/-! ## Helper lemmas -/

/-- A list starts with a pattern exactly when it is the pattern followed
by some remainder. -/
theorem listStartsWith_iff (pat : List Char) : ∀ l : List Char,
    listStartsWith l pat = true ↔ ∃ rest, l = pat ++ rest := by
  induction pat with
  | nil =>
    intro l
    constructor
    · intro _
      exact ⟨l, rfl⟩
    · intro _
      cases l <;> rfl
  | cons b bs ih =>
    intro l
    cases l with
    | nil =>
      simp [listStartsWith]
    | cons a as =>
      simp only [listStartsWith, Bool.and_eq_true, decide_eq_true_eq]
      constructor
      · rintro ⟨rfl, h2⟩
        obtain ⟨rest, rfl⟩ := (ih as).mp h2
        exact ⟨rest, rfl⟩
      · rintro ⟨rest, h⟩
        rw [List.cons_append] at h
        cases h
        exact ⟨rfl, (ih _).mpr ⟨rest, rfl⟩⟩

/-- The JavaScript includes check succeeds exactly when the pattern occurs
contiguously: the list decomposes around the pattern. -/
theorem listIncludes_iff (pat : List Char) : ∀ l : List Char,
    listIncludes pat l = true ↔ ∃ pre post, l = pre ++ pat ++ post := by
  intro l
  induction l with
  | nil =>
    cases pat with
    | nil =>
      simp [listIncludes]
    | cons b bs =>
      simp [listIncludes, List.isEmpty]
  | cons c cs ih =>
    simp only [listIncludes, Bool.or_eq_true]
    constructor
    · rintro (h | h)
      · obtain ⟨rest, hr⟩ := (listStartsWith_iff pat (c :: cs)).mp h
        exact ⟨[], rest, by simpa using hr⟩
      · obtain ⟨pre, post, hp⟩ := ih.mp h
        exact ⟨c :: pre, post, by simp [hp]⟩
    · rintro ⟨pre, post, hp⟩
      cases pre with
      | nil =>
        left
        exact (listStartsWith_iff pat (c :: cs)).mpr ⟨post, by simpa using hp⟩
      | cons p ps =>
        right
        rw [List.cons_append, List.cons_append] at hp
        cases hp
        exact ih.mpr ⟨ps, post, rfl⟩

/-- A list always starts with its own first component of an append. -/
theorem listStartsWith_append (a b : List Char) :
    listStartsWith (a ++ b) a = true := by
  induction a with
  | nil => cases b <;> rfl
  | cons x xs ih => simpa [listStartsWith] using ih

/-- String version: the data of a ++ b starts with the data of a. -/
theorem startsWith_str_append (a b : String) :
    listStartsWith (a ++ b).data a.data = true := by
  rw [String.data_append]
  exact listStartsWith_append a.data b.data

/-- splitNL never returns the empty list of pieces. -/
theorem splitNL_ne_nil (l : List Char) : splitNL l ≠ [] := by
  cases l with
  | nil => simp [splitNL]
  | cons c cs =>
    simp only [splitNL]
    split <;> simp

/-- The head piece of splitNL is the first line in the spec's sense: the
characters before the first newline. -/
theorem splitNL_headD (l : List Char) :
    (splitNL l).headD [] = specFirstLine l := by
  induction l with
  | nil => rfl
  | cons c cs ih =>
    by_cases h : c = '\n'
    · subst h
      simp [splitNL, specFirstLine]
    · have h2 : specFirstLine (c :: cs) = c :: specFirstLine cs := by
        simp [specFirstLine, h]
      rw [h2, ← ih]
      simp [splitNL, h]

/-- Appending an underscore-led suffix before the extension changes the
path: the suffixed path is never equal to the desired path. -/
theorem suffixed_path_ne (stem t ext : String) :
    stem ++ "_" ++ t ++ "." ++ ext ≠ stem ++ "." ++ ext := by
  intro h
  have h2 := congrArg String.data h
  simp only [String.data_append, List.append_assoc] at h2
  have h3 := List.append_cancel_left h2
  have h4 := congrArg (fun l => l.headD ' ') h3
  simp only [List.cons_append, List.headD_cons] at h4
  exact absurd h4 (by decide)

/-- The collision-resolved path always begins with the directory prefix it
was formed under. -/
theorem resolveUniquePath_startsWith (pre base ext : String)
    (ex : String → Bool) (r : Fin 1000) :
    listStartsWith (resolveUniquePath (pre ++ base) ext ex r).data pre.data = true := by
  unfold resolveUniquePath
  split
  · simp only [String.append_assoc]
    exact startsWith_str_append pre (base ++ ("_" ++ (toString r.val ++ ("." ++ ext))))
  · simp only [String.append_assoc]
    exact startsWith_str_append pre (base ++ ("." ++ ext))

/-- Adding a folder on top of a vault keeps every folder that existed. -/
theorem folderExists_cons_folder (v : Vault) (p q : String)
    (h : folderExists v p = true) :
    folderExists (VaultEntry.mk q EntryKind.folder :: v) p = true := by
  simp only [folderExists, List.any_cons, Bool.or_eq_true]
  right
  exact h

/-- vaultCreateFolder makes its folder exist. -/
theorem folderExists_createFolder (v : Vault) (p : String) :
    folderExists (vaultCreateFolder v p) p = true := by
  simp [folderExists, vaultCreateFolder]

/-- Structural dichotomy of a pipeline run: either some step threw and the
run returns the untouched vault with an empty effect trace, or every step
succeeded and the run created exactly the resolved note and renamed the
source to the resolved archive target. -/
theorem processAudioFile_cases (s : VoiceNotesSettings) (file : VaultFile)
    (v : Vault) (tResp sResp : RemoteResp) (r1 r2 : Fin 1000) :
    (∃ e, processAudioFile s file v tResp sResp r1 r2 =
        RunResult.mk (Except.error e) v [])
    ∨ (∃ notePath md,
        (transcribeAudio tResp).isOk = true
        ∧ (enhanceTranscript sResp).isOk = true
        ∧ pathExists v notePath = false
        ∧ processAudioFile s file v tResp sResp r1 r2 =
            RunResult.mk (Except.ok ())
              (vaultRename (VaultEntry.mk notePath (EntryKind.file md) :: v)
                file.path
                (resolveUniquePath
                  (s.processedDirectory ++ "/"
                    ++ (formatDateYMD file.mtime ++ " at " ++ formatTimeDot file.mtime))
                  file.extension
                  (pathExists (VaultEntry.mk notePath (EntryKind.file md) :: v)) r2))
              [Effect.createNote notePath md,
               Effect.renameFile file.path
                 (resolveUniquePath
                   (s.processedDirectory ++ "/"
                     ++ (formatDateYMD file.mtime ++ " at " ++ formatTimeDot file.mtime))
                   file.extension
                   (pathExists (VaultEntry.mk notePath (EntryKind.file md) :: v)) r2)]) := by
  unfold processAudioFile
  cases ht : transcribeAudio tResp with
  | error e =>
    left
    exact ⟨e, by simp⟩
  | ok transcript =>
    cases hs : enhanceTranscript sResp with
    | error e =>
      left
      exact ⟨e, by simp⟩
    | ok sc =>
      obtain ⟨summary, content⟩ := sc
      by_cases hp : pathExists v
          (resolveUniquePath
            (s.outputDirectory ++ "/"
              ++ (formatDateYMD file.mtime ++ " at " ++ formatTimeDot file.mtime))
            "md" (pathExists v) r1) = true
      · left
        refine ⟨"File already exists", ?_⟩
        simp only [vaultCreate, hp]
        simp
      · right
        refine ⟨resolveUniquePath
            (s.outputDirectory ++ "/"
              ++ (formatDateYMD file.mtime ++ " at " ++ formatTimeDot file.mtime))
            "md" (pathExists v) r1,
          formatToMarkdown content transcript
            ((formatDateYMD file.mtime ++ " at " ++ formatTimeDot file.mtime)
              ++ "." ++ file.extension) summary file,
          ?_, ?_, ?_, ?_⟩
        · rfl
        · rfl
        · simpa using hp
        · simp only [vaultCreate]
          rw [if_neg hp]

/-! ## Claim theorems -/

/-- C1: in every pipeline run, the source file is renamed into the archive
exactly when the note was written: the effect trace holds a rename of the
source iff it holds a note creation; a failed run leaves the vault exactly
as it was (the source stays in the watch folder); a successful run renames
the source to a destination under the processed directory. -/
theorem C1_relocation_iff_note_written (s : VoiceNotesSettings)
    (file : VaultFile) (v : Vault) (tResp sResp : RemoteResp) (r1 r2 : Fin 1000) :
    ((∃ dst, Effect.renameFile file.path dst ∈
        (processAudioFile s file v tResp sResp r1 r2).trace) ↔
      (∃ p c, Effect.createNote p c ∈
        (processAudioFile s file v tResp sResp r1 r2).trace))
    ∧ ((processAudioFile s file v tResp sResp r1 r2).outcome.isOk = false →
        (processAudioFile s file v tResp sResp r1 r2).vault = v)
    ∧ ((processAudioFile s file v tResp sResp r1 r2).outcome.isOk = true →
        ∃ dst, Effect.renameFile file.path dst ∈
            (processAudioFile s file v tResp sResp r1 r2).trace
          ∧ listStartsWith dst.data (s.processedDirectory ++ "/").data = true) := by
  rcases processAudioFile_cases s file v tResp sResp r1 r2 with
    ⟨e, he⟩ | ⟨np, md, _, _, _, he⟩
  · rw [he]
    refine ⟨by simp, fun _ => rfl, fun h => by simp [Except.isOk, Except.toBool] at h⟩
  · rw [he]
    refine ⟨by simp, fun h => by simp [Except.isOk, Except.toBool] at h, fun _ => ?_⟩
    refine ⟨resolveUniquePath
        (s.processedDirectory ++ "/"
          ++ (formatDateYMD file.mtime ++ " at " ++ formatTimeDot file.mtime))
        file.extension
        (pathExists (VaultEntry.mk np (EntryKind.file md) :: v)) r2, by simp, ?_⟩
    exact resolveUniquePath_startsWith (s.processedDirectory ++ "/") _ _ _ r2

/-- C1 witness: at a concrete failing input (the transcription call
raises) the run fails and the vault, source file included, is untouched. -/
theorem C1_witness :
    (processAudioFile DEFAULT_SETTINGS exFile exVault RemoteResp.failed
      (RemoteResp.returned (some "Quick note\n- said hello")) exDraw
      exDraw).outcome.isOk = false
    ∧ (processAudioFile DEFAULT_SETTINGS exFile exVault RemoteResp.failed
        (RemoteResp.returned (some "Quick note\n- said hello")) exDraw
        exDraw).vault = exVault :=
  ⟨rfl,
    (C1_relocation_iff_note_written DEFAULT_SETTINGS exFile exVault
      RemoteResp.failed (RemoteResp.returned (some "Quick note\n- said hello"))
      exDraw exDraw).2.1 rfl⟩

/-- C2: when the transcription or the summarization step fails, the run
fails, creates no note and performs no storage effect at all; a successful
run creates exactly one note. -/
theorem C2_failure_no_note_success_one_note (s : VoiceNotesSettings)
    (file : VaultFile) (v : Vault) (tResp sResp : RemoteResp) (r1 r2 : Fin 1000) :
    (((transcribeAudio tResp).isOk = false ∨ (enhanceTranscript sResp).isOk = false) →
      (processAudioFile s file v tResp sResp r1 r2).outcome.isOk = false
      ∧ (processAudioFile s file v tResp sResp r1 r2).vault = v
      ∧ (processAudioFile s file v tResp sResp r1 r2).trace = [])
    ∧ ((processAudioFile s file v tResp sResp r1 r2).outcome.isOk = true →
        (processAudioFile s file v tResp sResp r1 r2).trace.countP
          Effect.isCreateNote = 1) := by
  rcases processAudioFile_cases s file v tResp sResp r1 r2 with
    ⟨e, he⟩ | ⟨np, md, ht, hs2, _, he⟩
  · rw [he]
    exact ⟨fun _ => ⟨rfl, rfl, rfl⟩, fun h => by simp [Except.isOk, Except.toBool] at h⟩
  · rw [he]
    refine ⟨?_, fun _ => rfl⟩
    rintro (h | h)
    · exact absurd (ht.symm.trans h) (by decide)
    · exact absurd (hs2.symm.trans h) (by decide)

/-- C2 witness: at a concrete input whose summarization response is empty
the run fails, the vault is untouched and the trace is empty; this input
indeed makes the summarization step fail. -/
theorem C2_witness :
    (enhanceTranscript (RemoteResp.returned (some ""))).isOk = false
    ∧ (processAudioFile DEFAULT_SETTINGS exFile exVault
        (RemoteResp.returned (some "Hello world"))
        (RemoteResp.returned (some "")) exDraw exDraw).vault = exVault
    ∧ (processAudioFile DEFAULT_SETTINGS exFile exVault
        (RemoteResp.returned (some "Hello world"))
        (RemoteResp.returned (some "")) exDraw exDraw).trace = [] :=
  ⟨rfl,
    ((C2_failure_no_note_success_one_note DEFAULT_SETTINGS exFile exVault
        (RemoteResp.returned (some "Hello world"))
        (RemoteResp.returned (some "")) exDraw exDraw).1 (Or.inr rfl)).2.1,
    ((C2_failure_no_note_success_one_note DEFAULT_SETTINGS exFile exVault
        (RemoteResp.returned (some "Hello world"))
        (RemoteResp.returned (some "")) exDraw exDraw).1 (Or.inr rfl)).2.2⟩

/-- C3: the collision logic returns the desired path stem.ext unchanged
when nothing exists there; under a collision it returns the stem with an
appended underscore and the random draw, a path always different from the
desired one, the draw lying in the interval from 0 to 999; and the result
depends on the existence check only at the desired path, so no retry after
the single suffixing can occur. -/
theorem C3_resolveUniquePath_spec (stem ext : String) (ex : String → Bool)
    (r : Fin 1000) :
    (ex (stem ++ "." ++ ext) = false →
      resolveUniquePath stem ext ex r = stem ++ "." ++ ext)
    ∧ (ex (stem ++ "." ++ ext) = true →
        resolveUniquePath stem ext ex r
            = stem ++ "_" ++ toString r.val ++ "." ++ ext
          ∧ resolveUniquePath stem ext ex r ≠ stem ++ "." ++ ext
          ∧ r.val < 1000)
    ∧ (∀ ex2 : String → Bool,
        ex2 (stem ++ "." ++ ext) = ex (stem ++ "." ++ ext) →
        resolveUniquePath stem ext ex2 r = resolveUniquePath stem ext ex r) := by
  refine ⟨fun h => by simp [resolveUniquePath, h], fun h => ⟨?_, ?_, r.isLt⟩, ?_⟩
  · simp [resolveUniquePath, h]
  · rw [show resolveUniquePath stem ext ex r
        = stem ++ "_" ++ toString r.val ++ "." ++ ext from by
      simp [resolveUniquePath, h]]
    exact suffixed_path_ne stem (toString r.val) ext
  · intro ex2 h
    unfold resolveUniquePath
    rw [h]

/-- C3 witness: with an existence check that reports a collision on the
desired path, the resolved path carries the random suffix and differs from
the desired path; with no collision it is returned unchanged. -/
theorem C3_witness :
    resolveUniquePath "voice-notes-output/2024-05-01 at 09.00" "md"
        (fun _ => true) exDraw
      ≠ "voice-notes-output/2024-05-01 at 09.00.md"
    ∧ resolveUniquePath "voice-notes-output/2024-05-01 at 09.00" "md"
        (fun _ => false) exDraw
      = "voice-notes-output/2024-05-01 at 09.00.md" :=
  ⟨((C3_resolveUniquePath_spec "voice-notes-output/2024-05-01 at 09.00" "md"
      (fun _ => true) exDraw).2.1 rfl).2.1,
    (C3_resolveUniquePath_spec "voice-notes-output/2024-05-01 at 09.00" "md"
      (fun _ => false) exDraw).1 rfl⟩

/-- C5: an item whose pipeline run fails is caught inside its queued task:
the queue emits the failure Notice with that candidate's path and then
processes the remaining items exactly as it would have from the same
vault, so one failure never halts or poisons the queue. -/
theorem C5_queue_isolates_failures (s : VoiceNotesSettings) (file : VaultFile)
    (env : ItemEnv) (rest : List (VaultFile × ItemEnv)) (v : Vault)
    (h : (processAudioFile s file v env.tResp env.sResp env.r1 env.r2).outcome.isOk
        = false) :
    runQueue s ((file, env) :: rest) v =
      ((runQueue s rest v).1,
        Notification.processing file.path
          :: Notification.failedToProcess file.path :: (runQueue s rest v).2) := by
  rcases processAudioFile_cases s file v env.tResp env.sResp env.r1 env.r2 with
    ⟨e, he⟩ | ⟨np, md, _, _, _, he⟩
  · simp [runQueue, runQueuedTask, he]
  · rw [he] at h
    simp [Except.isOk, Except.toBool] at h

/-- C5 witness: concretely, a first item whose transcription call raises
is reported as failed, and the second item still runs and succeeds. -/
theorem C5_witness :
    runQueue DEFAULT_SETTINGS [(exFile, exEnvFail), (exFile, exEnvOk)] exVault =
      ((runQueue DEFAULT_SETTINGS [(exFile, exEnvOk)] exVault).1,
        Notification.processing exFile.path
          :: Notification.failedToProcess exFile.path
          :: (runQueue DEFAULT_SETTINGS [(exFile, exEnvOk)] exVault).2)
    ∧ (runQueue DEFAULT_SETTINGS [(exFile, exEnvOk)] exVault).2 =
        [Notification.processing exFile.path, Notification.transcribed exFile.path] :=
  ⟨C5_queue_isolates_failures DEFAULT_SETTINGS exFile exEnvFail
      [(exFile, exEnvOk)] exVault rfl,
    rfl⟩

/-- C6: shouldProcessFile holds exactly when the file is a regular file,
its extension is mp3 or m4a, and the watch directory occurs as a substring
of the path (the includes check, which also matches non-prefix
occurrences); and any file with another extension is rejected whatever its
path. -/
theorem C6_shouldProcessFile_iff (s : VoiceNotesSettings) (f : VaultFile) :
    (shouldProcessFile s f = true ↔
      (f.kind = FileKind.regularFile
        ∧ (f.extension = "mp3" ∨ f.extension = "m4a")
        ∧ ∃ pre post : List Char,
            f.path.data = pre ++ s.watchDirectory.data ++ post))
    ∧ (f.extension ≠ "mp3" → f.extension ≠ "m4a" →
        shouldProcessFile s f = false) := by
  constructor
  · simp only [shouldProcessFile, strIncludes, isAudioFile, Bool.and_eq_true,
      decide_eq_true_eq, Bool.or_eq_true, listIncludes_iff]
    tauto
  · intro h1 h2
    simp [shouldProcessFile, isAudioFile, h1, h2]

/-- C6 witness: a concrete file with a disallowed extension is rejected,
and a concrete mp3 whose path contains the watch root only as a non-prefix
substring is accepted. -/
theorem C6_witness :
    shouldProcessFile DEFAULT_SETTINGS
        (VaultFile.mk "voice-notes/memo.wav" "wav" FileKind.regularFile exMoment)
      = false
    ∧ shouldProcessFile DEFAULT_SETTINGS
        (VaultFile.mk "archive/voice-notes/memo.mp3" "mp3" FileKind.regularFile
          exMoment)
      = true :=
  ⟨(C6_shouldProcessFile_iff DEFAULT_SETTINGS
      (VaultFile.mk "voice-notes/memo.wav" "wav" FileKind.regularFile exMoment)).2
    (by decide) (by decide),
   rfl⟩

/-- C7: for a non-empty summarization response, the step succeeds with the
headline equal to the first line of the response (the characters before
the first newline) and the body the remaining split lines re-joined with
newlines and trimmed; and the step fails exactly when the remote call
raised or the content is absent or empty. -/
theorem C7_summarize_first_line_split :
    (∀ c : String, c ≠ "" →
      enhanceTranscript (RemoteResp.returned (some c)) =
        Except.ok (String.mk (specFirstLine c.data),
          jsTrim (String.intercalate "\n" (((splitNL c.data).drop 1).map String.mk))))
    ∧ (∀ resp : RemoteResp, (enhanceTranscript resp).isOk = false ↔
        (resp = RemoteResp.failed ∨ resp = RemoteResp.returned none
          ∨ resp = RemoteResp.returned (some ""))) := by
  constructor
  · intro c h
    have hred : enhanceTranscript (RemoteResp.returned (some c)) =
        if c = "" then Except.error "No transcription text received from OpenAI"
        else Except.ok (String.mk ((splitNL c.data).headD []),
          jsTrim (String.intercalate "\n" (((splitNL c.data).drop 1).map String.mk))) :=
      rfl
    rw [hred, if_neg h, splitNL_headD]
  · intro resp
    cases resp with
    | failed => simp [enhanceTranscript, Except.isOk, Except.toBool]
    | returned t =>
      cases t with
      | none => simp [enhanceTranscript, Except.isOk, Except.toBool]
      | some c =>
        by_cases h : c = ""
        · subst h
          simp [enhanceTranscript, Except.isOk, Except.toBool]
        · simp [enhanceTranscript, h, Except.isOk, Except.toBool]

/-- C7 witness: on the concrete response of two lines the headline is the
first line and the body the second, and the empty response fails. -/
theorem C7_witness :
    enhanceTranscript (RemoteResp.returned (some "Quick note\n- said hello")) =
      Except.ok ("Quick note", "- said hello")
    ∧ (enhanceTranscript (RemoteResp.returned (some ""))).isOk = false :=
  ⟨(C7_summarize_first_line_split.1 "Quick note\n- said hello" (by decide)).trans
      (by rfl),
    (C7_summarize_first_line_split.2 (RemoteResp.returned (some ""))).mpr
      (Or.inr (Or.inr rfl))⟩

/-- C8 counterexample: the code applies no escaping, so for the concrete
headline a"b the rendered front-matter summary line reads
summary: "a"b" — which is not a well-formed double-quoted value, contrary
to the claim that the headline is escaped so the quoting stays valid. -/
theorem C8_counterexample :
    (splitNL (formatToMarkdown "- said hello" "Hello world"
        "2024-05-01 at 09.00.m4a" "a\"b" exFile).data).getD 2 []
      = "summary: \"a\"b\"".data
    ∧ summaryLineWellFormed
        ((splitNL (formatToMarkdown "- said hello" "Hello world"
          "2024-05-01 at 09.00.m4a" "a\"b" exFile).data).getD 2 [])
      = false := by
  constructor
  · rfl
  · rfl

/-- C8 amended: render performs no escaping at all: the summary line is
the headline interpolated verbatim between the quotes, so a headline free
of quote characters yields a well-formed line, and the claim holds only in
that case. -/
theorem C8_render_interpolates_verbatim (content transcript audioFileName
    summary : String) (file : VaultFile) :
    ∃ post : String,
      formatToMarkdown content transcript audioFileName summary file =
        ("---\nsource: \"[[" ++ audioFileName ++ "]]\"\n")
          ++ ("summary: \"" ++ summary ++ "\"\n") ++ post := by
  refine ⟨"timestamp: \"" ++ toISOStringLocal file.mtime
    ++ "\"\ntags: \n  - fromvoicenote\n---\n" ++ content
    ++ "\n\n## Original transcript\n\n" ++ transcript, ?_⟩
  apply String.ext
  simp only [formatToMarkdown, String.data_append, List.append_assoc,
    List.cons_append, List.nil_append]

/-- C9 counterexample: a concrete successful run started while the archive
directory is absent from the vault performs the rename of the source but
never creates any folder: the run does not ensure the archive directory
exists, contrary to the claim. -/
theorem C9_counterexample :
    folderExists exVaultNoArchive DEFAULT_SETTINGS.processedDirectory = false
    ∧ (processAudioFile DEFAULT_SETTINGS exFile exVaultNoArchive
        (RemoteResp.returned (some "Hello world"))
        (RemoteResp.returned (some "Quick note\n- said hello"))
        exDraw exDraw).outcome.isOk = true
    ∧ (processAudioFile DEFAULT_SETTINGS exFile exVaultNoArchive
        (RemoteResp.returned (some "Hello world"))
        (RemoteResp.returned (some "Quick note\n- said hello"))
        exDraw exDraw).trace.all (fun e => !e.isCreateFolder) = true
    ∧ (processAudioFile DEFAULT_SETTINGS exFile exVaultNoArchive
        (RemoteResp.returned (some "Hello world"))
        (RemoteResp.returned (some "Quick note\n- said hello"))
        exDraw exDraw).trace.any (fun e => e.isRenameOf exFile.path) = true := by
  refine ⟨rfl, rfl, rfl, rfl⟩

/-- C9 amended: the archive directory is ensured to exist once, at plugin
load: after the onload folder setup it exists, and the setup is idempotent
in that it emits no creation for an already-existing archive directory;
the pipeline run itself never creates any folder, so a deletion after
startup is not repaired by a run. -/
theorem C9_folders_ensured_at_onload (s : VoiceNotesSettings) (v : Vault) :
    folderExists (onloadEnsureFolders s v).1 s.processedDirectory = true
    ∧ (folderExists v s.processedDirectory = true →
        Effect.createFolder s.processedDirectory ∉ (onloadEnsureFolders s v).2)
    ∧ (∀ (file : VaultFile) (v2 : Vault) (tResp sResp : RemoteResp)
        (r1 r2 : Fin 1000),
        (processAudioFile s file v2 tResp sResp r1 r2).trace.all
          (fun e => !e.isCreateFolder) = true) := by
  refine ⟨?_, ?_, ?_⟩
  · unfold onloadEnsureFolders
    by_cases hp : folderExists v s.processedDirectory = true
    · rw [if_pos hp]
      by_cases ho : folderExists v s.outputDirectory = true
      · rw [if_pos ho]
        exact hp
      · rw [if_neg ho]
        exact folderExists_cons_folder v _ _ hp
    · rw [if_neg hp]
      have h1 := folderExists_createFolder v s.processedDirectory
      by_cases ho :
          folderExists (vaultCreateFolder v s.processedDirectory) s.outputDirectory
            = true
      · rw [if_pos ho]
        exact h1
      · rw [if_neg ho]
        exact folderExists_cons_folder _ _ _ h1
  · intro hp
    unfold onloadEnsureFolders
    rw [if_pos hp]
    by_cases ho : folderExists v s.outputDirectory = true
    · rw [if_pos ho]
      simp
    · rw [if_neg ho]
      simp only [List.mem_singleton]
      intro hmem
      have heq : s.processedDirectory = s.outputDirectory :=
        Effect.createFolder.inj hmem
      rw [← heq] at ho
      exact ho hp
  · intro file v2 tResp sResp r1 r2
    rcases processAudioFile_cases s file v2 tResp sResp r1 r2 with
      ⟨e, he⟩ | ⟨np, md, _, _, _, he⟩
    · rw [he]
      rfl
    · rw [he]
      rfl

/-- C9 amended witness: on the concrete vault that already has the archive
folder, onload leaves it in place, emits no creation effect for it, and a
concrete run performs no folder creation. -/
theorem C9_amended_witness :
    folderExists (onloadEnsureFolders DEFAULT_SETTINGS exVault).1
        DEFAULT_SETTINGS.processedDirectory = true
    ∧ Effect.createFolder DEFAULT_SETTINGS.processedDirectory
        ∉ (onloadEnsureFolders DEFAULT_SETTINGS exVault).2 :=
  ⟨(C9_folders_ensured_at_onload DEFAULT_SETTINGS exVault).1,
    (C9_folders_ensured_at_onload DEFAULT_SETTINGS exVault).2.1 rfl⟩

/-- C10: under the default settings, any regular mp3 or m4a file whose
path lies under the processed directory passes shouldProcessFile, because
voice-notes-processed contains voice-notes as a substring; hence such an
archived recording is enqueued by the startup scan whenever it is among
the vault files, and the watcher callback accepts it on the rename event
its own relocation fires. -/
theorem C10_processed_dir_files_requeued (rest ext : String) (m : Moment)
    (files : List VaultFile) (hext : ext = "mp3" ∨ ext = "m4a") :
    shouldProcessFile DEFAULT_SETTINGS
        (VaultFile.mk ("voice-notes-processed/" ++ rest) ext
          FileKind.regularFile m) = true
    ∧ (VaultFile.mk ("voice-notes-processed/" ++ rest) ext
          FileKind.regularFile m ∈ files →
        VaultFile.mk ("voice-notes-processed/" ++ rest) ext
          FileKind.regularFile m ∈ queueUnprocessedFiles DEFAULT_SETTINGS files)
    ∧ queueFromWatcher DEFAULT_SETTINGS
        (VaultFile.mk ("voice-notes-processed/" ++ rest) ext
          FileKind.regularFile m) = true := by
  have hsub : strIncludes ("voice-notes-processed/" ++ rest) "voice-notes" = true := by
    unfold strIncludes
    rw [listIncludes_iff]
    refine ⟨[], ("-processed/" ++ rest).data, ?_⟩
    rw [String.data_append, String.data_append, List.nil_append,
      ← List.append_assoc]
    rfl
  have hmain : shouldProcessFile DEFAULT_SETTINGS
      (VaultFile.mk ("voice-notes-processed/" ++ rest) ext
        FileKind.regularFile m) = true := by
    simp only [shouldProcessFile, isAudioFile, DEFAULT_SETTINGS]
    rcases hext with h | h <;> simp [h, hsub]
  refine ⟨hmain, ?_, hmain⟩
  intro hmem
  unfold queueUnprocessedFiles
  rw [List.mem_filter]
  exact ⟨hmem, hmain⟩

/-- C10 witness: the concrete relocated recording under the processed
directory passes the filter and is re-enqueued by the startup scan. -/
theorem C10_witness :
    shouldProcessFile DEFAULT_SETTINGS
        (VaultFile.mk ("voice-notes-processed/" ++ "2024-05-01 at 09.00.m4a")
          "m4a" FileKind.regularFile exMoment) = true
    ∧ VaultFile.mk ("voice-notes-processed/" ++ "2024-05-01 at 09.00.m4a")
          "m4a" FileKind.regularFile exMoment ∈
        queueUnprocessedFiles DEFAULT_SETTINGS
          [VaultFile.mk ("voice-notes-processed/" ++ "2024-05-01 at 09.00.m4a")
            "m4a" FileKind.regularFile exMoment] :=
  ⟨(C10_processed_dir_files_requeued "2024-05-01 at 09.00.m4a" "m4a" exMoment []
      (Or.inr rfl)).1,
    (C10_processed_dir_files_requeued "2024-05-01 at 09.00.m4a" "m4a" exMoment
      [VaultFile.mk ("voice-notes-processed/" ++ "2024-05-01 at 09.00.m4a")
        "m4a" FileKind.regularFile exMoment] (Or.inr rfl)).2.1
      (List.mem_singleton.mpr rfl)⟩

end VoiceNotes
